import Mathlib

/-!
Shallow embedding of the SimPy event kernel (`src/simpy/events.py`).

Events live on a heap indexed by natural-number ids.  A Python attribute
`_value` holding the `PENDING` sentinel is modelled as `Option.none`; a
triggered event holds `some v` where `v : PyVal` models the Python payload.
Callbacks (closures in the source) are modelled as tagged variants, one per
closure actually attached by the kernel, as the source only ever attaches
bound methods of known shape.
-/

set_option autoImplicit false

namespace SimPy

/-- Priority of interrupts and process initialization events
(`URGENT = 0` in the source). -/
def URGENT : Nat := 0

/-- Default priority used by events (`NORMAL = 1` in the source). -/
def NORMAL : Nat := 1

/-- Model of Python runtime values as they appear in the kernel: `None`,
numbers, strings, exception objects and (ordered) dictionaries.  An
exception object carries an identity `id` (Python object identity), a type
tag `ty` (the Python class), constructor arguments `args`, and an optional
`cause` referencing another exception object by identity
(`__cause__`). -/
inductive PyVal where
  | none
  | nat (n : Nat)
  | str (s : String)
  | exc (id : Nat) (ty : Nat) (args : List PyVal) (cause : Option Nat)
  | dict (entries : List (Nat × PyVal))

/-- `isinstance(v, BaseException)` for the modelled values. -/
def isExc : PyVal → Bool
  | PyVal.exc _ _ _ _ => true
  | _ => false

/-- The callbacks the kernel attaches to events, as tagged variants:
`Condition._check`, `Condition._collect_values`, `Process._resume`,
`Interruption._interrupt`, or an arbitrary user callback. -/
inductive Callback where
  | check (cond : Nat)
  | collectValues (cond : Nat)
  | resume (proc : Nat)
  | interruptCb (ev : Nat)
  | user (n : Nat)
deriving DecidableEq

/-- Which evaluation predicate a `Condition` stores:
`Condition.all_events` or `Condition.any_events`. -/
inductive EvalKind where
  | allE
  | anyE
deriving DecidableEq

/-- `Condition.all_events(events, count)`: `len(events) == count`. -/
def all_events (events : List Nat) (count : Nat) : Bool :=
  events.length == count

/-- `Condition.any_events(events, count)`: `count > 0 or len(events) == 0`. -/
def any_events (events : List Nat) (count : Nat) : Bool :=
  decide (count > 0) || (events.length == 0)

/-- Dispatch on the stored evaluation predicate. -/
def evalPred : EvalKind → List Nat → Nat → Bool
  | EvalKind.allE, events, count => all_events events count
  | EvalKind.anyE, events, count => any_events events count

/-- The mutable state of one event object.

* `value = Option.none` models `_value is PENDING`;
* `ok` models the `ok` attribute (only meaningful once triggered; the
  Python attribute does not exist before then);
* `callbacks = Option.none` models `callbacks is None`, i.e. processed;
* `defused` models the `defused` attribute (absent in Python until set,
  which reads as false);
* `target` models `Process._target` (`Option.none` models Python `None`);
* `subEvents` is `some es` exactly for `Condition` objects and models
  `_events`; `count` models `Condition._count` and `evalKind` the stored
  `_evaluate` function;
* `gen` is `some script` exactly for `Process` objects and models the
  remaining outcomes of the wrapped generator (see `GenOut`). -/
structure EventS where
  value : Option PyVal
  ok : Bool
  callbacks : Option (List Callback)
  defused : Bool
  target : Option Nat
  subEvents : Option (List Nat)
  count : Nat
  evalKind : EvalKind

/-- A freshly constructed base event, as set up by `Event.__init__`:
pending value, empty callback list. -/
def mkEvent : EventS :=
  { value := Option.none, ok := false, callbacks := some [],
    defused := false, target := Option.none, subEvents := Option.none,
    count := 0, evalKind := EvalKind.allE }

/-- The simulation state: the event heap, plus the environment data the
kernel reads and writes (`now`, the schedule queue, the active process and
the insertion counter).  `excCounter` is an allocation counter for Python
exception-object identities: every identity of an exception object already
allocated is `< excCounter`, and constructing a new exception uses
`excCounter` as its identity. -/
structure Sim where
  heap : Nat → EventS
  nextId : Nat
  now : Int
  nextEid : Nat
  queue : List (Int × Nat × Nat × Nat)
  activeProc : Option Nat
  excCounter : Nat

/-- Update one event on the heap. -/
def setEv (s : Sim) (i : Nat) (e : EventS) : Sim :=
  { s with heap := fun j => if j = i then e else s.heap j }

/-- Modelled from the spec: `Environment.schedule(event, priority, delay)`
of the core module, which is not among the sources (only `events.py` is).
Per spec section 4.1 it appends the event to the queue keyed by
`(now + delay, priority, insertion_id)`, with the insertion counter
incremented. -/
def Sim.schedule (s : Sim) (ev : Nat) (priority : Nat) (delay : Int) : Sim :=
  { s with queue := s.queue ++ [(s.now + delay, priority, s.nextEid, ev)],
           nextEid := s.nextEid + 1 }

@[simp] theorem setEv_heap (s : Sim) (i j : Nat) (e : EventS) :
    (setEv s i e).heap j = if j = i then e else s.heap j := rfl

@[simp] theorem setEv_queue (s : Sim) (i : Nat) (e : EventS) :
    (setEv s i e).queue = s.queue := rfl

@[simp] theorem setEv_now (s : Sim) (i : Nat) (e : EventS) :
    (setEv s i e).now = s.now := rfl

@[simp] theorem setEv_nextEid (s : Sim) (i : Nat) (e : EventS) :
    (setEv s i e).nextEid = s.nextEid := rfl

@[simp] theorem setEv_nextId (s : Sim) (i : Nat) (e : EventS) :
    (setEv s i e).nextId = s.nextId := rfl

@[simp] theorem setEv_activeProc (s : Sim) (i : Nat) (e : EventS) :
    (setEv s i e).activeProc = s.activeProc := rfl

@[simp] theorem setEv_excCounter (s : Sim) (i : Nat) (e : EventS) :
    (setEv s i e).excCounter = s.excCounter := rfl

@[simp] theorem schedule_heap (s : Sim) (ev p : Nat) (d : Int) :
    (Sim.schedule s ev p d).heap = s.heap := rfl

@[simp] theorem schedule_queue (s : Sim) (ev p : Nat) (d : Int) :
    (Sim.schedule s ev p d).queue = s.queue ++ [(s.now + d, p, s.nextEid, ev)] := rfl

@[simp] theorem schedule_now (s : Sim) (ev p : Nat) (d : Int) :
    (Sim.schedule s ev p d).now = s.now := rfl

@[simp] theorem schedule_nextEid (s : Sim) (ev p : Nat) (d : Int) :
    (Sim.schedule s ev p d).nextEid = s.nextEid + 1 := rfl

@[simp] theorem schedule_nextId (s : Sim) (ev p : Nat) (d : Int) :
    (Sim.schedule s ev p d).nextId = s.nextId := rfl

@[simp] theorem schedule_activeProc (s : Sim) (ev p : Nat) (d : Int) :
    (Sim.schedule s ev p d).activeProc = s.activeProc := rfl

@[simp] theorem schedule_excCounter (s : Sim) (ev p : Nat) (d : Int) :
    (Sim.schedule s ev p d).excCounter = s.excCounter := rfl

/-- The synchronous errors the embedded operations can raise. -/
inductive Err where
  | runtimeError
  | valueError
deriving DecidableEq

/-- `Event.trigger(self, event)`: copy `ok` and `_value` from `event` into
`self` and schedule `self` (default priority, zero delay).  The source has
no already-triggered guard here. -/
def eventTrigger (s : Sim) (self other : Nat) : Sim :=
  let s1 := setEv s self
    { s.heap self with ok := (s.heap other).ok, value := (s.heap other).value }
  s1.schedule self NORMAL 0

/-- `Event.succeed(self, value)`: raise `RuntimeError` if already
triggered, else set `ok = True`, store the value and schedule. -/
def eventSucceed (s : Sim) (self : Nat) (v : PyVal) : Except Err Sim :=
  if (s.heap self).value.isSome then
    Except.error Err.runtimeError
  else
    let s1 := setEv s self { s.heap self with ok := true, value := some v }
    Except.ok (s1.schedule self NORMAL 0)

/-- `Event.fail(self, exception)`: raise `RuntimeError` if already
triggered, `ValueError` if the argument is not an exception, else set
`ok = False`, store the exception and schedule. -/
def eventFail (s : Sim) (self : Nat) (v : PyVal) : Except Err Sim :=
  if (s.heap self).value.isSome then
    Except.error Err.runtimeError
  else if ¬ isExc v then
    Except.error Err.valueError
  else
    let s1 := setEv s self { s.heap self with ok := false, value := some v }
    Except.ok (s1.schedule self NORMAL 0)

/-- `Timeout.__init__(env, delay, value)`: raise `ValueError` on a negative
delay; otherwise allocate the event already triggered (`_value = value`,
`ok = True`) and schedule it with `NORMAL` priority and the given delay.
Returns the new event's id with the new state. -/
def timeoutInit (s : Sim) (delay : Int) (v : PyVal) : Except Err (Sim × Nat) :=
  if delay < 0 then
    Except.error Err.valueError
  else
    let id := s.nextId
    let s1 := setEv { s with nextId := s.nextId + 1 } id
      { mkEvent with value := some v, ok := true }
    Except.ok (s1.schedule id NORMAL delay, id)

/-- `Condition._check(self, event)`: return if the condition is already
triggered; otherwise increment `_count`, then either forward a failure
(marking the sub-event defused first) or succeed when the evaluation
predicate holds on `(_events, _count)`. -/
def condCheck (s : Sim) (cond : Nat) (event : Nat) : Except Err Sim :=
  if (s.heap cond).value.isSome then
    Except.ok s
  else
    let c := s.heap cond
    let s1 := setEv s cond { c with count := c.count + 1 }
    let e := s1.heap event
    if e.ok = false then
      let s2 := setEv s1 event { e with defused := true }
      eventFail s2 cond (e.value.getD PyVal.none)
    else if evalPred (s1.heap cond).evalKind ((s1.heap cond).subEvents.getD [])
        (s1.heap cond).count then
      eventSucceed s1 cond PyVal.none
    else
      Except.ok s1

/-- The loop of `Condition.__init__` over the sub-events: for each
sub-event, invoke `_check` immediately when it is already processed
(`callbacks is None`), else append `_check` to its callbacks. -/
def condInitLoop (cond : Nat) : Sim → List Nat → Except Err Sim
  | s, [] => Except.ok s
  | s, e :: rest =>
    match (s.heap e).callbacks with
    | Option.none =>
      match condCheck s cond e with
      | Except.error err => Except.error err
      | Except.ok s1 => condInitLoop cond s1 rest
    | some cbs =>
      condInitLoop cond
        (setEv s e { s.heap e with callbacks := some (cbs ++ [Callback.check cond]) })
        rest

/-- `Condition.__init__(env, evaluate, events)`: allocate the condition via
`Event.__init__` with `_evaluate`, `_events` and `_count = 0`, run the
per-sub-event loop, and finally append `_collect_values` to the
condition's own callbacks.  The environment-mismatch check of the source
always passes here since a single environment is modelled. -/
def conditionInit (s : Sim) (ek : EvalKind) (events : List Nat) :
    Except Err (Sim × Nat) :=
  let id := s.nextId
  let s1 := setEv { s with nextId := s.nextId + 1 } id
    { mkEvent with subEvents := some events, evalKind := ek }
  match condInitLoop id s1 events with
  | Except.error err => Except.error err
  | Except.ok s2 =>
    let c := s2.heap id
    Except.ok
      (setEv s2 id
        { c with callbacks := some (c.callbacks.getD [] ++ [Callback.collectValues id]) },
       id)

/-- `AnyOf.__init__(env, events)`: a condition over `any_events`. -/
def anyOfInit (s : Sim) (events : List Nat) : Except Err (Sim × Nat) :=
  conditionInit s EvalKind.anyE events

/-- `AllOf.__init__(env, events)`: a condition over `all_events`. -/
def allOfInit (s : Sim) (events : List Nat) : Except Err (Sim × Nat) :=
  conditionInit s EvalKind.allE events

/-!
The value-collection pass of a condition (`_get_values` and
`_collect_values`) walks the fixed tree of sub-events.  Sub-events form a
tree because `_events` is fixed at construction from already-existing
events.  A node is either a plain event (with its processed flag, i.e.
`callbacks is None`, and its `_value`) or a nested condition with its own
sub-event list.
-/

/-- A sub-event of a condition, as `_get_values` observes it: either a
plain event with its id, processed flag (`callbacks is None`) and value,
or a nested condition. -/
inductive SubEv where
  | plain (id : Nat) (processed : Bool) (value : PyVal)
  | cond (id : Nat) (subs : List SubEv)

/-- `OrderedDict.__setitem__`: overwrite in place when the key is present,
append otherwise. -/
def odUpdate : List (Nat × PyVal) → Nat → PyVal → List (Nat × PyVal)
  | [], k, v => [(k, v)]
  | (k1, v1) :: rest, k, v =>
    if k1 = k then (k, v) :: rest else (k1, v1) :: odUpdate rest k v

/-- `OrderedDict.update(other)`: set each entry of `other` in order. -/
def odMerge (m : List (Nat × PyVal)) (other : List (Nat × PyVal)) :
    List (Nat × PyVal) :=
  other.foldl (fun acc kv => odUpdate acc kv.1 kv.2) m

/-- The loop of `Condition._get_values` over `self._events`, with the
`values` dictionary as accumulator: nested conditions contribute
`values.update(event._get_values())`; plain processed events contribute
`values[event] = event._value`; unprocessed plain events contribute
nothing. -/
def getValuesAux : List (Nat × PyVal) → List SubEv → List (Nat × PyVal)
  | acc, [] => acc
  | acc, SubEv.plain i p v :: rest =>
    getValuesAux (if p then odUpdate acc i v else acc) rest
  | acc, SubEv.cond _ subs :: rest =>
    getValuesAux (odMerge acc (getValuesAux [] subs)) rest

/-- `Condition._get_values(self)`: start from an empty ordered dictionary.  -/
def condGetValues (subs : List SubEv) : List (Nat × PyVal) :=
  getValuesAux [] subs

/-- `Condition._collect_values(self, event)`: when the triggering event is
ok, replace the condition's value by a fresh ordered dictionary updated
with `_get_values()`; otherwise leave the value alone. -/
def collectValuesTree (triggerOk : Bool) (old : Option PyVal)
    (subs : List SubEv) : Option PyVal :=
  if triggerOk then some (PyVal.dict (odMerge [] (condGetValues subs))) else old

/-- The flattened leaf sequence of a sub-event list: nested conditions are
traversed transparently, in list order; each plain leaf reports its id,
processed flag and value. -/
def leavesAux : List SubEv → List (Nat × Bool × PyVal)
  | [] => []
  | SubEv.plain i p v :: rest => (i, p, v) :: leavesAux rest
  | SubEv.cond _ subs :: rest => leavesAux subs ++ leavesAux rest

/-- Following the spec's words: the collected value is the
insertion-ordered map from each processed leaf (ordered by the supplied
sub-event list, nesting flattened transparently) to that leaf's value;
unprocessed leaves are absent. -/
def specCollected (subs : List SubEv) : List (Nat × PyVal) :=
  (leavesAux subs).filterMap
    (fun t => if t.2.1 then some (t.1, t.2.2) else Option.none)

/-!
The process driver (`Process._resume`), the process constructor, and the
interruption machinery.  The wrapped generator is modelled as the script
of outcomes its successive `send`/`throw` calls produce: yield an event,
return a value (`StopIteration`), or raise an exception (identified by the
raised object's identity, class and arguments).
-/

/-- One outcome of resuming the generator: it yields an event, returns
(`StopIteration`, with the returned value), or raises an exception object
with identity `i`, class `ty` and arguments `args`. -/
inductive GenOut where
  | yieldE (e : Nat)
  | ret (v : PyVal)
  | raiseE (i : Nat) (ty : Nat) (args : List PyVal)

/-- The head of each iteration of the `_resume` loop: when the delivered
event failed (`not event.ok`), mark it defused before throwing. -/
def deliverDefuse (s : Sim) (event : Nat) : Sim :=
  if (s.heap event).ok then s
  else setEv s event { s.heap event with defused := true }

/-- The `while True` loop of `Process._resume`, structurally recursing on
the generator script.  Returns the final state, the unconsumed script and
the value assigned to `self._target` at loop exit (`Option.none` models
the Python `event = None` of the termination branches).  An exhausted
script behaves as `StopIteration` with no arguments (value `None`). -/
def resumeLoop (proc : Nat) : Sim → Nat → List GenOut → Sim × List GenOut × Option Nat
  | s, event, [] =>
    let s0 := deliverDefuse s event
    let p := s0.heap proc
    let s1 := setEv s0 proc { p with ok := true, value := some PyVal.none }
    (s1.schedule proc NORMAL 0, [], Option.none)
  | s, event, GenOut.ret v :: rest =>
    let s0 := deliverDefuse s event
    let p := s0.heap proc
    let s1 := setEv s0 proc { p with ok := true, value := some v }
    (s1.schedule proc NORMAL 0, rest, Option.none)
  | s, event, GenOut.raiseE i ty args :: rest =>
    let s0 := deliverDefuse s event
    let p := s0.heap proc
    let s1 := setEv s0 proc
      { p with ok := false,
               value := some (PyVal.exc s0.excCounter ty args (some i)) }
    let s2 := { s1 with excCounter := s1.excCounter + 1 }
    (s2.schedule proc NORMAL 0, rest, Option.none)
  | s, event, GenOut.yieldE e2 :: rest =>
    let s0 := deliverDefuse s event
    match (s0.heap e2).callbacks with
    | some cbs =>
      (setEv s0 e2 { s0.heap e2 with callbacks := some (cbs ++ [Callback.resume proc]) },
       rest, some e2)
    | Option.none => resumeLoop proc s0 e2 rest

/-- `Process._resume(self, event)`: set the active process, run the loop,
store the exit event into `self._target` and clear the active process.
Returns the new state and the unconsumed generator script. -/
def procResume (s : Sim) (proc : Nat) (event : Nat) (gen : List GenOut) :
    Sim × List GenOut :=
  let s1 := { s with activeProc := some proc }
  let r := resumeLoop proc s1 event gen
  let s2 := setEv r.1 proc { r.1.heap proc with target := r.2.2 }
  ({ s2 with activeProc := Option.none }, r.2.1)

/-- `Initialize.__init__(env, process)`: allocate the event with the
process's `_resume` as sole callback, `_value = None`, `ok = True`, and
schedule it with `URGENT` priority. -/
def mkInitialize (s : Sim) (proc : Nat) : Sim × Nat :=
  let id := s.nextId
  let s1 := setEv { s with nextId := s.nextId + 1 } id
    { mkEvent with callbacks := some [Callback.resume proc],
                   value := some PyVal.none, ok := true }
  (s1.schedule id URGENT 0, id)

/-- The constructor argument of `Process.__init__`: a generator (carrying
its outcome script) or any non-generator value. -/
inductive ProcArg where
  | gen (script : List GenOut)
  | notGen (v : PyVal)

/-- `Process.__init__(env, generator)`: raise `ValueError` when the
argument is not a generator, before any event is created or scheduled;
otherwise allocate the process (pending, empty callbacks) and set
`_target` to a fresh `Initialize` event. -/
def processInit (s : Sim) (arg : ProcArg) : Except Err (Sim × Nat) :=
  match arg with
  | ProcArg.notGen _ => Except.error Err.valueError
  | ProcArg.gen _ =>
    let id := s.nextId
    let s1 := setEv { s with nextId := s.nextId + 1 } id mkEvent
    let r := mkInitialize s1 id
    Except.ok (setEv r.1 id { r.1.heap id with target := some r.2 }, id)

/-- The class tag used for `Interrupt` exception objects. -/
def tyInterrupt : Nat := 1

/-- `Interruption.__init__(self, process, cause)`: allocate the event with
its `_interrupt` method as sole callback, `_value = Interrupt(cause)`
(a fresh exception object), `ok = False` and `defused = True`; then raise
`RuntimeError` if the process has terminated, raise `RuntimeError` if the
process is the active process, and otherwise schedule with `URGENT`
priority. -/
def interruptionInit (s : Sim) (proc : Nat) (cause : PyVal) :
    Except Err (Sim × Nat) :=
  let id := s.nextId
  let s1 := setEv { s with nextId := s.nextId + 1, excCounter := s.excCounter + 1 } id
    { mkEvent with callbacks := some [Callback.interruptCb id],
                   value := some (PyVal.exc s.excCounter tyInterrupt [cause] Option.none),
                   ok := false, defused := true }
  if (s1.heap proc).value.isSome then
    Except.error Err.runtimeError
  else if s1.activeProc = some proc then
    Except.error Err.runtimeError
  else
    Except.ok (s1.schedule id URGENT 0, id)

/-- `Process.interrupt(self, cause)`: construct an `Interruption`. -/
def processInterrupt (s : Sim) (proc : Nat) (cause : PyVal) : Except Err Sim :=
  match interruptionInit s proc cause with
  | Except.error err => Except.error err
  | Except.ok r => Except.ok r.1

/-! Concrete states used to instantiate the theorems below. -/

/-- An empty simulation: every heap slot holds a fresh pending event, time
zero, empty queue, no active process. -/
def baseSim : Sim :=
  { heap := fun _ => mkEvent, nextId := 0, now := 0, nextEid := 0,
    queue := [], activeProc := Option.none, excCounter := 1 }

/-- A state whose event `0` is triggered ok with value `1` and whose event
`1` is triggered failed with value `2`. -/
def simTwoTriggered : Sim :=
  { baseSim with heap := fun i =>
      if i = 0 then { mkEvent with value := some (PyVal.nat 1), ok := true }
      else if i = 1 then { mkEvent with value := some (PyVal.nat 2), ok := false }
      else mkEvent }

/-- A state whose event `1` is a processed, failed event carrying an
exception object, and whose event `0` is a pending condition over `[1]`. -/
def simFailedSub : Sim :=
  { baseSim with
    nextId := 2,
    heap := fun i =>
      if i = 1 then
        { mkEvent with value := some (PyVal.exc 0 2 [] Option.none),
                       ok := false, callbacks := Option.none }
      else if i = 0 then { mkEvent with subEvents := some [1] }
      else mkEvent }

/-- A state whose event `1` is a processed, successful event (the one a
process is being resumed with) and whose slot `0` is a pending process. -/
def simDelivered : Sim :=
  { baseSim with
    nextId := 2,
    heap := fun i =>
      if i = 1 then
        { mkEvent with value := some PyVal.none, ok := true,
                       callbacks := Option.none }
      else mkEvent }

/-! ### C1 -/

/-- C1: `Condition(env, evaluate, [])` (so `AnyOf(env, [])` and
`AllOf(env, [])`) does **not** succeed at construction: the loop over the
empty sub-event list never invokes `_check`, so `_evaluate` is never
consulted, the condition's value stays `PENDING` and nothing is scheduled
— even though both evaluation predicates hold vacuously at
`(events = [], count = 0)`, which is what the claim (and the dead
`len(events) == 0` branch of `any_events`) expects. -/
theorem conditionInit_empty_stays_pending (s : Sim) (ek : EvalKind) :
    ∃ s1, conditionInit s ek [] = Except.ok (s1, s.nextId) ∧
      (s1.heap s.nextId).value = Option.none ∧
      s1.queue = s.queue ∧ s1.nextEid = s.nextEid ∧
      any_events [] 0 = true ∧ all_events [] 0 = true := by
  refine ⟨_, rfl, ?_, ?_, ?_, ?_, ?_⟩ <;>
    simp [conditionInit, condInitLoop, mkEvent, any_events, all_events]

/-! ### C3 -/

/-- C3 counterexample: event `0` of `simTwoTriggered` is already triggered
(value `1`, `ok = true`), yet `Event.trigger` overwrites its value and
`ok` with those of event `1`, contradicting "once triggered, value and ok
never change again under any subsequent operation, including trigger". -/
theorem eventTrigger_overwrites_triggered :
    (simTwoTriggered.heap 0).value = some (PyVal.nat 1) ∧
    (simTwoTriggered.heap 0).ok = true ∧
    ((eventTrigger simTwoTriggered 0 1).heap 0).value = some (PyVal.nat 2) ∧
    ((eventTrigger simTwoTriggered 0 1).heap 0).ok = false :=
  ⟨rfl, rfl, rfl, rfl⟩

/-- C3 amended: once an event is triggered, `succeed` and `fail` refuse to
run (RuntimeError) and leave it unchanged, but `Event.trigger` has no
already-triggered guard and unconditionally overwrites `ok` and `value`
with the other event's state. -/
theorem triggered_immutable_except_trigger (s : Sim) (e other : Nat)
    (v w : PyVal) (h : (s.heap e).value.isSome) :
    eventSucceed s e v = Except.error Err.runtimeError ∧
    eventFail s e w = Except.error Err.runtimeError ∧
    ((eventTrigger s e other).heap e).value = (s.heap other).value ∧
    ((eventTrigger s e other).heap e).ok = (s.heap other).ok := by
  refine ⟨?_, ?_, ?_, ?_⟩ <;>
    simp [eventSucceed, eventFail, eventTrigger, h]

/-- Witness for the C3 amended theorem at the concrete state
`simTwoTriggered`. -/
theorem triggered_immutable_except_trigger_witness :
    eventSucceed simTwoTriggered 0 PyVal.none = Except.error Err.runtimeError ∧
    eventFail simTwoTriggered 0 PyVal.none = Except.error Err.runtimeError ∧
    ((eventTrigger simTwoTriggered 0 1).heap 0).value = (simTwoTriggered.heap 1).value ∧
    ((eventTrigger simTwoTriggered 0 1).heap 0).ok = (simTwoTriggered.heap 1).ok :=
  triggered_immutable_except_trigger simTwoTriggered 0 1 PyVal.none PyVal.none rfl

/-! Helper lemmas: `deliverDefuse` only ever touches the `defused` flag of
the delivered event; every other field and every environment component is
unchanged. -/

@[simp] theorem deliverDefuse_queue (s : Sim) (ev : Nat) :
    (deliverDefuse s ev).queue = s.queue := by
  by_cases h : (s.heap ev).ok <;> simp [deliverDefuse, h]

@[simp] theorem deliverDefuse_now (s : Sim) (ev : Nat) :
    (deliverDefuse s ev).now = s.now := by
  by_cases h : (s.heap ev).ok <;> simp [deliverDefuse, h]

@[simp] theorem deliverDefuse_nextEid (s : Sim) (ev : Nat) :
    (deliverDefuse s ev).nextEid = s.nextEid := by
  by_cases h : (s.heap ev).ok <;> simp [deliverDefuse, h]

@[simp] theorem deliverDefuse_excCounter (s : Sim) (ev : Nat) :
    (deliverDefuse s ev).excCounter = s.excCounter := by
  by_cases h : (s.heap ev).ok <;> simp [deliverDefuse, h]

@[simp] theorem deliverDefuse_value (s : Sim) (ev j : Nat) :
    ((deliverDefuse s ev).heap j).value = (s.heap j).value := by
  by_cases h : (s.heap ev).ok
  · simp [deliverDefuse, h]
  · by_cases hj : j = ev
    · subst hj; simp [deliverDefuse, h]
    · simp [deliverDefuse, h, hj]

@[simp] theorem deliverDefuse_callbacks (s : Sim) (ev j : Nat) :
    ((deliverDefuse s ev).heap j).callbacks = (s.heap j).callbacks := by
  by_cases h : (s.heap ev).ok
  · simp [deliverDefuse, h]
  · by_cases hj : j = ev
    · subst hj; simp [deliverDefuse, h]
    · simp [deliverDefuse, h, hj]

theorem deliverDefuse_defused_mono (s : Sim) (ev j : Nat)
    (h : (s.heap j).defused = true) :
    ((deliverDefuse s ev).heap j).defused = true := by
  by_cases hok : (s.heap ev).ok
  · simpa [deliverDefuse, hok] using h
  · by_cases hj : j = ev
    · subst hj; simp [deliverDefuse, hok]
    · simpa [deliverDefuse, hok, hj] using h

theorem deliverDefuse_sets_defused (s : Sim) (ev : Nat)
    (h : (s.heap ev).ok = false) :
    ((deliverDefuse s ev).heap ev).defused = true := by
  simp [deliverDefuse, h]

/-! ### C2 -/

/-- C2 counterexample: resuming the pending process `0` of `simDelivered`
with a generator that terminates (returning `7`) leaves `_target = None`,
not the process itself, even though the process is now dead
(`_value ≠ PENDING`), contradicting the claim that a dead process's
`_target` points to the process itself (the source's own docstring for
`target` says: returns `None` if the process is dead). -/
theorem dead_process_target_is_none :
    ((procResume simDelivered 0 1 [GenOut.ret (PyVal.nat 7)]).1.heap 0).value =
      some (PyVal.nat 7) ∧
    ((procResume simDelivered 0 1 [GenOut.ret (PyVal.nat 7)]).1.heap 0).target ≠
      some 0 ∧
    ((procResume simDelivered 0 1 [GenOut.ret (PyVal.nat 7)]).1.heap 0).target =
      Option.none :=
  ⟨rfl, by decide, rfl⟩

/-- C2 amended: after a resume step in which the generator terminates —
by returning a value (`StopIteration` with arguments), by raising an
unhandled exception, or by being exhausted (`StopIteration` with no
arguments) — the process is dead (`_value` no longer `PENDING`) and its
`_target` is `None`, not the process itself; after a resume step in which
the generator yields a not-yet-processed event, `_target` is that event
and the process's `_value` is unchanged (still `PENDING` if it was). -/
theorem resume_target_dead_or_waiting (s : Sim) (proc ev : Nat)
    (gen : List GenOut) :
    (∀ v rest, gen = GenOut.ret v :: rest →
      ((procResume s proc ev gen).1.heap proc).value = some v ∧
      ((procResume s proc ev gen).1.heap proc).target = Option.none) ∧
    (∀ i ty args rest, gen = GenOut.raiseE i ty args :: rest →
      ((procResume s proc ev gen).1.heap proc).value =
        some (PyVal.exc s.excCounter ty args (some i)) ∧
      ((procResume s proc ev gen).1.heap proc).target = Option.none) ∧
    (gen = [] →
      ((procResume s proc ev gen).1.heap proc).value = some PyVal.none ∧
      ((procResume s proc ev gen).1.heap proc).target = Option.none) ∧
    (∀ e2 rest cbs, gen = GenOut.yieldE e2 :: rest →
      (s.heap e2).callbacks = some cbs →
      ((procResume s proc ev gen).1.heap proc).target = some e2 ∧
      ((procResume s proc ev gen).1.heap proc).value = (s.heap proc).value) := by
  refine ⟨?_, ?_, ?_, ?_⟩
  · intro v rest hgen
    subst hgen
    constructor <;> simp [procResume, resumeLoop]
  · intro i ty args rest hgen
    subst hgen
    constructor <;> simp [procResume, resumeLoop]
  · intro hgen
    subst hgen
    constructor <;> simp [procResume, resumeLoop]
  · intro e2 rest cbs hgen hcb
    subst hgen
    have hc : (((deliverDefuse { s with activeProc := some proc } ev)).heap e2).callbacks =
        some cbs := by
      rw [deliverDefuse_callbacks]; exact hcb
    constructor
    · simp only [procResume, resumeLoop, hc]
      simp
    · simp only [procResume, resumeLoop, hc]
      by_cases hpe : proc = e2
      · subst hpe; simp
      · simp [hpe]

/-- Witness for the C2 amended theorem at `simDelivered`: a generator
returning `7`, a generator raising an exception, an exhausted generator,
and a generator yielding the pending event `3`. -/
theorem resume_target_dead_or_waiting_witness :
    (((procResume simDelivered 0 1 [GenOut.ret (PyVal.nat 7)]).1.heap 0).value =
        some (PyVal.nat 7) ∧
      ((procResume simDelivered 0 1 [GenOut.ret (PyVal.nat 7)]).1.heap 0).target =
        Option.none) ∧
    (((procResume simDelivered 0 1 [GenOut.raiseE 0 9 []]).1.heap 0).value =
        some (PyVal.exc simDelivered.excCounter 9 [] (some 0)) ∧
      ((procResume simDelivered 0 1 [GenOut.raiseE 0 9 []]).1.heap 0).target =
        Option.none) ∧
    (((procResume simDelivered 0 1 ([] : List GenOut)).1.heap 0).value =
        some PyVal.none ∧
      ((procResume simDelivered 0 1 ([] : List GenOut)).1.heap 0).target =
        Option.none) ∧
    (((procResume simDelivered 0 1 [GenOut.yieldE 3]).1.heap 0).target = some 3 ∧
      ((procResume simDelivered 0 1 [GenOut.yieldE 3]).1.heap 0).value =
        (simDelivered.heap 0).value) :=
  ⟨(resume_target_dead_or_waiting simDelivered 0 1 _).1 (PyVal.nat 7) [] rfl,
   (resume_target_dead_or_waiting simDelivered 0 1 _).2.1 0 9 [] [] rfl,
   (resume_target_dead_or_waiting simDelivered 0 1 _).2.2.1 rfl,
   (resume_target_dead_or_waiting simDelivered 0 1 _).2.2.2 3 [] [] rfl rfl⟩

/-! ### C5 -/

/-- The resume loop never clears a `defused` flag. -/
theorem resumeLoop_defused_mono (proc : Nat) :
    ∀ (gen : List GenOut) (s : Sim) (ev e0 : Nat),
      (s.heap e0).defused = true →
      ((resumeLoop proc s ev gen).1.heap e0).defused = true
  | [], s, ev, e0, h => by
    have h0 := deliverDefuse_defused_mono s ev e0 h
    by_cases hp : e0 = proc
    · subst hp; simp [resumeLoop, h0]
    · simp [resumeLoop, hp, h0]
  | GenOut.ret v :: rest, s, ev, e0, h => by
    have h0 := deliverDefuse_defused_mono s ev e0 h
    by_cases hp : e0 = proc
    · subst hp; simp [resumeLoop, h0]
    · simp [resumeLoop, hp, h0]
  | GenOut.raiseE i ty args :: rest, s, ev, e0, h => by
    have h0 := deliverDefuse_defused_mono s ev e0 h
    by_cases hp : e0 = proc
    · subst hp; simp [resumeLoop, h0]
    · simp [resumeLoop, hp, h0]
  | GenOut.yieldE e2 :: rest, s, ev, e0, h => by
    have h0 := deliverDefuse_defused_mono s ev e0 h
    rcases hcb : ((deliverDefuse s ev).heap e2).callbacks with _ | cbs
    · simp only [resumeLoop, hcb]
      exact resumeLoop_defused_mono proc rest (deliverDefuse s ev) e2 e0 h0
    · simp only [resumeLoop, hcb]
      by_cases hp : e0 = e2
      · subst hp; simp [h0]
      · simp [hp, h0]

/-- The first action of every branch of the resume loop on a failed
delivered event is to set its `defused` flag. -/
theorem resumeLoop_defuses_failed (proc : Nat) (gen : List GenOut) (s : Sim)
    (ev : Nat) (h : (s.heap ev).ok = false) :
    ((resumeLoop proc s ev gen).1.heap ev).defused = true := by
  have h0 := deliverDefuse_sets_defused s ev h
  cases gen with
  | nil =>
    by_cases hp : ev = proc
    · subst hp; simp [resumeLoop, h0]
    · simp [resumeLoop, hp, h0]
  | cons out rest =>
    cases out with
    | ret v =>
      by_cases hp : ev = proc
      · subst hp; simp [resumeLoop, h0]
      · simp [resumeLoop, hp, h0]
    | raiseE i ty args =>
      by_cases hp : ev = proc
      · subst hp; simp [resumeLoop, h0]
      · simp [resumeLoop, hp, h0]
    | yieldE e2 =>
      rcases hcb : ((deliverDefuse s ev).heap e2).callbacks with _ | cbs
      · simp only [resumeLoop, hcb]
        exact resumeLoop_defused_mono proc rest (deliverDefuse s ev) e2 ev h0
      · simp only [resumeLoop, hcb]
        by_cases hp : ev = e2
        · subst hp; simp [h0]
        · simp [hp, h0]

/-- C5: whenever the driver resumes a process with a failed event
(`ok = false`), the event is marked defused before the error is thrown
into the generator, so after the resume step the delivered event's
`defused` flag is set — whatever the generator then does. -/
theorem resume_defuses_failed_event (s : Sim) (proc ev : Nat)
    (gen : List GenOut) (h : (s.heap ev).ok = false) :
    ((procResume s proc ev gen).1.heap ev).defused = true := by
  have h1 : (({ s with activeProc := some proc } : Sim).heap ev).ok = false := h
  have h2 := resumeLoop_defuses_failed proc gen { s with activeProc := some proc } ev h1
  by_cases hp : ev = proc
  · subst hp; simpa [procResume] using h2
  · simpa [procResume, hp] using h2

/-- Witness for the C5 theorem: resuming process `0` of `simFailedSub`
with its failed event `1` (the generator script immediately ends). -/
theorem resume_defuses_failed_event_witness :
    ((procResume simFailedSub 0 1 []).1.heap 1).defused = true :=
  resume_defuses_failed_event simFailedSub 0 1 [] rfl

/-! ### C10 -/

/-- C10: when the generator raises an exception object `E` (identity `i`,
class `ty`, arguments `args`), the process is triggered failed and its
value is a freshly constructed exception — identity `excCounter`, which
differs from `i` for any identity already allocated — of the same class,
built from the same arguments, with the original `E` recorded as its
`__cause__`; the process is scheduled once. -/
theorem resume_failure_fresh_exception (s : Sim) (proc ev : Nat)
    (i ty : Nat) (args : List PyVal) (rest : List GenOut)
    (hfresh : i ≠ s.excCounter) :
    ((procResume s proc ev (GenOut.raiseE i ty args :: rest)).1.heap proc).ok =
      false ∧
    ((procResume s proc ev (GenOut.raiseE i ty args :: rest)).1.heap proc).value =
      some (PyVal.exc s.excCounter ty args (some i)) ∧
    s.excCounter ≠ i ∧
    (procResume s proc ev (GenOut.raiseE i ty args :: rest)).1.excCounter =
      s.excCounter + 1 ∧
    (procResume s proc ev (GenOut.raiseE i ty args :: rest)).1.queue =
      s.queue ++ [(s.now, NORMAL, s.nextEid, proc)] := by
  refine ⟨?_, ?_, Ne.symm hfresh, ?_, ?_⟩ <;>
    simp [procResume, resumeLoop]

/-- Witness for the C10 theorem: process `0` of `simDelivered` resumed
with event `1`, whose generator raises the exception with identity `0`,
class `9`, one argument. -/
theorem resume_failure_fresh_exception_witness :
    ((procResume simDelivered 0 1 [GenOut.raiseE 0 9 [PyVal.nat 3]]).1.heap 0).ok =
      false ∧
    ((procResume simDelivered 0 1 [GenOut.raiseE 0 9 [PyVal.nat 3]]).1.heap 0).value =
      some (PyVal.exc simDelivered.excCounter 9 [PyVal.nat 3] (some 0)) ∧
    simDelivered.excCounter ≠ 0 ∧
    (procResume simDelivered 0 1 [GenOut.raiseE 0 9 [PyVal.nat 3]]).1.excCounter =
      simDelivered.excCounter + 1 ∧
    (procResume simDelivered 0 1 [GenOut.raiseE 0 9 [PyVal.nat 3]]).1.queue =
      simDelivered.queue ++
        [(simDelivered.now, NORMAL, simDelivered.nextEid, 0)] :=
  resume_failure_fresh_exception simDelivered 0 1 0 9 [PyVal.nat 3] [] (by decide)

/-! ### C4 -/

/-- C4: `Condition._check` on an already-triggered condition returns with
the state (value, ok, `_count`, queue) unchanged; on a pending condition
delivered a failed sub-event it marks the sub-event defused and fails the
condition with the sub-event's exception value, incrementing `_count` and
scheduling the condition once. -/
theorem condCheck_fail_forwarding (s : Sim) (cond ev : Nat) :
    ((s.heap cond).value.isSome → condCheck s cond ev = Except.ok s) ∧
    (∀ eid ty args c,
      (s.heap cond).value = Option.none →
      (s.heap ev).ok = false →
      (s.heap ev).value = some (PyVal.exc eid ty args c) →
      ∃ s2, condCheck s cond ev = Except.ok s2 ∧
        (s2.heap ev).defused = true ∧
        (s2.heap cond).ok = false ∧
        (s2.heap cond).value = some (PyVal.exc eid ty args c) ∧
        (s2.heap cond).count = (s.heap cond).count + 1 ∧
        s2.queue = s.queue ++ [(s.now, NORMAL, s.nextEid, cond)]) := by
  constructor
  · intro h
    simp [condCheck, h]
  · intro eid ty args c hpend hok hval
    by_cases hec : ev = cond
    · rw [hec, hpend] at hval
      exact absurd hval (by simp)
    · have hec2 : ¬ cond = ev := fun h2 => hec h2.symm
      simp only [condCheck, eventFail, isExc, hpend, hok, hval, hec, hec2,
                 setEv_heap, setEv_queue, setEv_now, setEv_nextEid,
                 Option.isSome_none, Option.isSome_some, Option.getD_some,
                 if_true, if_false, ite_true, ite_false, eq_self_iff_true,
                 Bool.false_eq_true, not_false_eq_true, not_true,
                 Bool.not_eq_true]
      refine ⟨_, rfl, ?_, ?_, ?_, ?_, ?_⟩ <;>
        simp [hec, hec2]

/-- Witness for the C4 theorem at the concrete state `simFailedSub`:
condition `0` is pending, sub-event `1` failed. -/
theorem condCheck_fail_forwarding_witness :
    (∃ s2, condCheck simFailedSub 0 1 = Except.ok s2 ∧
      (s2.heap 1).defused = true ∧
      (s2.heap 0).ok = false ∧
      (s2.heap 0).value = some (PyVal.exc 0 2 [] Option.none) ∧
      (s2.heap 0).count = (simFailedSub.heap 0).count + 1 ∧
      s2.queue = simFailedSub.queue ++
        [(simFailedSub.now, NORMAL, simFailedSub.nextEid, 0)]) ∧
    condCheck (setEv simFailedSub 0 { mkEvent with value := some PyVal.none }) 0 1 =
      Except.ok (setEv simFailedSub 0 { mkEvent with value := some PyVal.none }) :=
  ⟨(condCheck_fail_forwarding simFailedSub 0 1).2 0 2 [] Option.none rfl rfl rfl,
   (condCheck_fail_forwarding
      (setEv simFailedSub 0 { mkEvent with value := some PyVal.none }) 0 1).1 rfl⟩

/-! ### C7 -/

/-- C7: `Process.interrupt` raises `RuntimeError` exactly when the target
process has terminated (`_value` not `PENDING`) or is the active process;
otherwise it succeeds and schedules exactly one fresh `Interruption`
event, `URGENT`, at the current instant.  In the error cases the
constructor raises before reaching `env.schedule`, so the returned
`Except.error` carries no state change. -/
theorem processInterrupt_guard (s : Sim) (proc : Nat) (cause : PyVal)
    (hp : proc ≠ s.nextId) :
    (processInterrupt s proc cause = Except.error Err.runtimeError ↔
      ((s.heap proc).value.isSome ∨ s.activeProc = some proc)) ∧
    (¬ ((s.heap proc).value.isSome ∨ s.activeProc = some proc) →
      ∃ s1, processInterrupt s proc cause = Except.ok s1 ∧
        s1.queue = s.queue ++ [(s.now, URGENT, s.nextEid, s.nextId)] ∧
        (s1.heap s.nextId).ok = false ∧
        (s1.heap s.nextId).defused = true ∧
        (s1.heap s.nextId).value =
          some (PyVal.exc s.excCounter tyInterrupt [cause] Option.none)) := by
  constructor
  · by_cases hdead : (s.heap proc).value.isSome
    · simp [processInterrupt, interruptionInit, hp, hdead]
    · by_cases hself : s.activeProc = some proc
      · simp [processInterrupt, interruptionInit, hp, hdead, hself]
      · simp [processInterrupt, interruptionInit, hp, hdead, hself]
  · intro h
    rw [not_or] at h
    simp only [processInterrupt, interruptionInit, setEv_heap, setEv_activeProc,
               hp, h.1, h.2, Bool.false_eq_true, if_false, ite_false,
               not_false_eq_true, Option.isSome_none]
    refine ⟨_, rfl, ?_, ?_, ?_, ?_⟩ <;> simp

/-- Witness for the C7 theorem: interrupting the alive, non-active process
`3` of `baseSim` schedules an `Interruption`. -/
theorem processInterrupt_guard_witness :
    ∃ s1, processInterrupt baseSim 3 PyVal.none = Except.ok s1 ∧
      s1.queue = baseSim.queue ++
        [(baseSim.now, URGENT, baseSim.nextEid, baseSim.nextId)] ∧
      (s1.heap baseSim.nextId).ok = false ∧
      (s1.heap baseSim.nextId).defused = true ∧
      (s1.heap baseSim.nextId).value =
        some (PyVal.exc baseSim.excCounter tyInterrupt [PyVal.none] Option.none) :=
  (processInterrupt_guard baseSim 3 PyVal.none (by decide)).2 (by decide)

/-! ### C8 -/

/-- C8: a negative delay makes `Timeout.__init__` raise `ValueError`
before anything is scheduled; a non-negative delay allocates the event
already triggered (`ok = true`, the given value) and schedules it at
`now + delay` with `NORMAL` priority. -/
theorem timeoutInit_spec (s : Sim) (delay : Int) (v : PyVal) :
    (delay < 0 → timeoutInit s delay v = Except.error Err.valueError) ∧
    (0 ≤ delay → ∃ s1,
      timeoutInit s delay v = Except.ok (s1, s.nextId) ∧
      (s1.heap s.nextId).value = some v ∧
      (s1.heap s.nextId).ok = true ∧
      (s1.heap s.nextId).callbacks = some [] ∧
      s1.queue = s.queue ++ [(s.now + delay, NORMAL, s.nextEid, s.nextId)]) := by
  constructor
  · intro h
    simp [timeoutInit, h]
  · intro h
    simp only [timeoutInit, not_lt.mpr h, if_false, ite_false]
    refine ⟨_, rfl, ?_, ?_, ?_, ?_⟩ <;> simp [mkEvent]

/-- Witness for the C8 theorem: `Timeout(-1)` raises, `Timeout(2, 5)` is
triggered and queued at time `2`. -/
theorem timeoutInit_spec_witness :
    timeoutInit baseSim (-1) PyVal.none = Except.error Err.valueError ∧
    ∃ s1, timeoutInit baseSim 2 (PyVal.nat 5) = Except.ok (s1, baseSim.nextId) ∧
      (s1.heap baseSim.nextId).value = some (PyVal.nat 5) ∧
      (s1.heap baseSim.nextId).ok = true ∧
      (s1.heap baseSim.nextId).callbacks = some [] ∧
      s1.queue = baseSim.queue ++
        [(baseSim.now + 2, NORMAL, baseSim.nextEid, baseSim.nextId)] :=
  ⟨(timeoutInit_spec baseSim (-1) PyVal.none).1 (by decide),
   (timeoutInit_spec baseSim 2 (PyVal.nat 5)).2 (by decide)⟩

/-! ### C9 -/

/-- C9: `Process.__init__` checks its argument first: a non-generator
raises `ValueError` with no event created or scheduled (the `Except.error`
carries no state, mirroring the raise on the first line of the source);
a generator allocates the pending process plus its `Initialize` event,
which is the only thing scheduled (`URGENT`, at `now`). -/
theorem processInit_spec (s : Sim) :
    (∀ v, processInit s (ProcArg.notGen v) = Except.error Err.valueError) ∧
    (∀ script, ∃ s1,
      processInit s (ProcArg.gen script) = Except.ok (s1, s.nextId) ∧
      (s1.heap s.nextId).value = Option.none ∧
      (s1.heap s.nextId).callbacks = some [] ∧
      (s1.heap s.nextId).target = some (s.nextId + 1) ∧
      (s1.heap (s.nextId + 1)).callbacks = some [Callback.resume s.nextId] ∧
      (s1.heap (s.nextId + 1)).ok = true ∧
      s1.queue = s.queue ++ [(s.now, URGENT, s.nextEid, s.nextId + 1)]) := by
  constructor
  · intro v
    rfl
  · intro script
    refine ⟨_, rfl, ?_, ?_, ?_, ?_, ?_, ?_⟩ <;>
      simp [processInit, mkInitialize, mkEvent, Nat.succ_ne_self]

/-! ### C6 -/

/-- The key sequence of an ordered dictionary. -/
def odKeys (m : List (Nat × PyVal)) : List Nat :=
  m.map Prod.fst

@[simp] theorem odKeys_nil : odKeys [] = [] := rfl

@[simp] theorem odKeys_cons (kv : Nat × PyVal) (m : List (Nat × PyVal)) :
    odKeys (kv :: m) = kv.1 :: odKeys m := rfl

@[simp] theorem odKeys_append (m1 m2 : List (Nat × PyVal)) :
    odKeys (m1 ++ m2) = odKeys m1 ++ odKeys m2 := by
  simp [odKeys]

/-- Setting an absent key appends it. -/
theorem odUpdate_of_not_mem :
    ∀ (m : List (Nat × PyVal)) (k : Nat) (v : PyVal),
      k ∉ odKeys m → odUpdate m k v = m ++ [(k, v)]
  | [], _, _, _ => rfl
  | (k1, v1) :: rest, k, v, h => by
    have h1 : ¬ k1 = k := fun he => h (by simp [he])
    have h2 : k ∉ odKeys rest := fun hm => h (by simp [hm])
    simp [odUpdate, h1, odUpdate_of_not_mem rest k v h2]

/-- Updating with a dictionary whose keys are fresh and distinct
appends it. -/
theorem odMerge_of_disjoint :
    ∀ (other m : List (Nat × PyVal)),
      (odKeys other).Nodup →
      (∀ k ∈ odKeys other, k ∉ odKeys m) →
      odMerge m other = m ++ other
  | [], m, _, _ => by simp [odMerge]
  | (k, v) :: rest, m, hnd, hdisj => by
    have hk : k ∉ odKeys m := hdisj k (by simp)
    have hnd1 : (odKeys rest).Nodup := (List.nodup_cons.mp hnd).2
    have hknr : k ∉ odKeys rest := (List.nodup_cons.mp hnd).1
    have hdisj1 : ∀ k2 ∈ odKeys rest, k2 ∉ odKeys (m ++ [(k, v)]) := by
      intro k2 hk2
      simp only [odKeys_append, List.mem_append]
      rintro (hm | hs)
      · exact hdisj k2 (by simp [hk2]) hm
      · simp only [odKeys_cons, odKeys_nil, List.mem_cons, List.not_mem_nil,
                   or_false] at hs
        exact hknr (hs ▸ hk2)
    have step : odMerge m ((k, v) :: rest) = odMerge (m ++ [(k, v)]) rest := by
      simp [odMerge, odUpdate_of_not_mem m k v hk]
    rw [step, odMerge_of_disjoint rest (m ++ [(k, v)]) hnd1 hdisj1,
        List.append_assoc]
    rfl

@[simp] theorem leavesAux_nil : leavesAux [] = [] := by
  simp [leavesAux]

@[simp] theorem leavesAux_plain (i : Nat) (p : Bool) (v : PyVal)
    (rest : List SubEv) :
    leavesAux (SubEv.plain i p v :: rest) = (i, p, v) :: leavesAux rest := by
  simp [leavesAux]

@[simp] theorem leavesAux_cond (j : Nat) (subs rest : List SubEv) :
    leavesAux (SubEv.cond j subs :: rest) = leavesAux subs ++ leavesAux rest := by
  simp [leavesAux]

@[simp] theorem specCollected_nil : specCollected [] = [] := by
  simp [specCollected]

@[simp] theorem specCollected_plain_true (i : Nat) (v : PyVal)
    (rest : List SubEv) :
    specCollected (SubEv.plain i true v :: rest) = (i, v) :: specCollected rest := by
  simp [specCollected, List.filterMap_cons]

@[simp] theorem specCollected_plain_false (i : Nat) (v : PyVal)
    (rest : List SubEv) :
    specCollected (SubEv.plain i false v :: rest) = specCollected rest := by
  simp [specCollected, List.filterMap_cons]

@[simp] theorem specCollected_cond (j : Nat) (subs rest : List SubEv) :
    specCollected (SubEv.cond j subs :: rest) =
      specCollected subs ++ specCollected rest := by
  simp [specCollected, List.filterMap_append]

@[simp] theorem getValuesAux_nil (acc : List (Nat × PyVal)) :
    getValuesAux acc [] = acc := by
  simp [getValuesAux]

@[simp] theorem getValuesAux_plain_true (acc : List (Nat × PyVal)) (i : Nat)
    (v : PyVal) (rest : List SubEv) :
    getValuesAux acc (SubEv.plain i true v :: rest) =
      getValuesAux (odUpdate acc i v) rest := by
  simp [getValuesAux]

@[simp] theorem getValuesAux_plain_false (acc : List (Nat × PyVal)) (i : Nat)
    (v : PyVal) (rest : List SubEv) :
    getValuesAux acc (SubEv.plain i false v :: rest) = getValuesAux acc rest := by
  simp [getValuesAux]

@[simp] theorem getValuesAux_cond (acc : List (Nat × PyVal)) (j : Nat)
    (subs rest : List SubEv) :
    getValuesAux acc (SubEv.cond j subs :: rest) =
      getValuesAux (odMerge acc (getValuesAux [] subs)) rest := by
  simp [getValuesAux]

/-- The accumulator form of `_get_values` appends exactly the processed
leaves, in order, provided the processed leaf keys are distinct and fresh
for the accumulator. -/
theorem getValuesAux_eq_spec :
    ∀ (l : List SubEv) (acc : List (Nat × PyVal)),
      (odKeys (specCollected l)).Nodup →
      (∀ k ∈ odKeys (specCollected l), k ∉ odKeys acc) →
      getValuesAux acc l = acc ++ specCollected l
  | [], acc, _, _ => by simp
  | SubEv.plain i false v :: rest, acc, hnd, hdisj => by
    rw [specCollected_plain_false] at hnd hdisj ⊢
    rw [getValuesAux_plain_false]
    exact getValuesAux_eq_spec rest acc hnd hdisj
  | SubEv.plain i true v :: rest, acc, hnd, hdisj => by
    rw [specCollected_plain_true] at hnd hdisj ⊢
    simp only [odKeys_cons, List.mem_cons] at hnd hdisj
    have hi : i ∉ odKeys acc := hdisj i (Or.inl rfl)
    have hnd1 : (odKeys (specCollected rest)).Nodup := (List.nodup_cons.mp hnd).2
    have hinr : i ∉ odKeys (specCollected rest) := (List.nodup_cons.mp hnd).1
    have hdisj1 : ∀ k ∈ odKeys (specCollected rest), k ∉ odKeys (acc ++ [(i, v)]) := by
      intro k hk
      simp only [odKeys_append, List.mem_append]
      rintro (hm | hs)
      · exact hdisj k (Or.inr hk) hm
      · simp only [odKeys_cons, odKeys_nil, List.mem_cons, List.not_mem_nil,
                   or_false] at hs
        exact hinr (hs ▸ hk)
    rw [getValuesAux_plain_true, odUpdate_of_not_mem acc i v hi,
        getValuesAux_eq_spec rest (acc ++ [(i, v)]) hnd1 hdisj1,
        List.append_assoc]
    rfl
  | SubEv.cond j subs :: rest, acc, hnd, hdisj => by
    rw [specCollected_cond] at hnd hdisj ⊢
    rw [odKeys_append, List.nodup_append] at hnd
    obtain ⟨hnds, hndr, hdisjsr⟩ := hnd
    have hinner : getValuesAux [] subs = specCollected subs := by
      have h := getValuesAux_eq_spec subs [] hnds (by simp)
      simpa using h
    have hmerge : odMerge acc (specCollected subs) = acc ++ specCollected subs :=
      odMerge_of_disjoint (specCollected subs) acc hnds
        (fun k hk => hdisj k (by simp [hk]))
    have hdisj1 : ∀ k ∈ odKeys (specCollected rest),
        k ∉ odKeys (acc ++ specCollected subs) := by
      intro k hk
      simp only [odKeys_append, List.mem_append]
      rintro (hm | hs)
      · exact hdisj k (by simp [hk]) hm
      · exact hdisjsr hs hk
    rw [getValuesAux_cond, hinner, hmerge,
        getValuesAux_eq_spec rest (acc ++ specCollected subs) hndr hdisj1,
        List.append_assoc]

/-- `_get_values` computes the spec-side map when the processed leaf keys
are distinct. -/
theorem condGetValues_eq_spec (subs : List SubEv)
    (hnd : (odKeys (specCollected subs)).Nodup) :
    condGetValues subs = specCollected subs := by
  have h := getValuesAux_eq_spec subs [] hnd (by simp)
  simpa [condGetValues] using h

/-- C6: when the condition succeeds (it is collected with `ok = true`),
its value becomes the insertion-ordered mapping, ordered by the supplied
sub-event list with nested conditions flattened transparently, from each
processed sub-event to the value of that sub-event; unprocessed (in particular
untriggered) sub-events are absent.  When collected with a failed event
the value is left alone. -/
theorem collectValues_spec (old : Option PyVal) (subs : List SubEv)
    (hnd : (odKeys (specCollected subs)).Nodup) :
    collectValuesTree true old subs =
      some (PyVal.dict (specCollected subs)) ∧
    collectValuesTree false old subs = old := by
  constructor
  · have h1 := condGetValues_eq_spec subs hnd
    have h2 := odMerge_of_disjoint (specCollected subs) [] hnd (by simp)
    simp [collectValuesTree, h1, h2]
  · rfl

/-- A nested sub-event list: a processed plain event, a nested condition
holding an unprocessed and a processed event, then an unprocessed plain
event. -/
def subsExample : List SubEv :=
  [SubEv.plain 1 true (PyVal.nat 10),
   SubEv.cond 2 [SubEv.plain 3 false PyVal.none, SubEv.plain 4 true (PyVal.nat 40)],
   SubEv.plain 5 false PyVal.none]

/-- Witness for the C6 theorem: the collected value of `subsExample`
keeps the processed leaves `1` and `4`, in order, flattening the nested
condition and dropping the unprocessed leaves `3` and `5`. -/
theorem collectValues_spec_witness :
    collectValuesTree true Option.none subsExample =
      some (PyVal.dict [(1, PyVal.nat 10), (4, PyVal.nat 40)]) := by
  have hspec : specCollected subsExample = [(1, PyVal.nat 10), (4, PyVal.nat 40)] := by
    simp [subsExample]
  have hnd : (odKeys (specCollected subsExample)).Nodup := by
    rw [hspec]; decide
  rw [(collectValues_spec Option.none subsExample hnd).1, hspec]

end SimPy
